import Mathlib

/-!
Verification of the Analysis-and-Alerting Engine of the stock-analysis
repository.

The repository ships the risk/sentiment algorithms as Python methods of
RiskAnalysisAgent and EmotionalAnalysisAgent (calculate_max_drawdown,
calculate_annualized_volatility, calculate_sharpe_ratio,
generate_risk_recommendations, analyze_sentiment_trend).  Those methods are
embedded here shallowly: Python floats are idealised as rationals where the
computation is exact and as reals where a square root occurs, Python dicts
with a fixed key set become structures, and the heterogeneous dict returned
by analyze_sentiment_trend becomes an association list of string/number
values.  Python round(x, 2) is embedded as rounding half-to-even at two
decimal places.

The alert trigger state machine and acknowledge endpoint live in the
backend service, which is not part of the sources here (only its TypeScript
type declarations and HTTP callers are); those two operations are modelled
from the specification, as marked in their doc comments.
-/

/-- Rounding half to even (banker rounding) of a rational to an integer,
as Python round() does; implemented with Rat.floor so that it evaluates. -/
def roundHalfEvenQ (y : ℚ) : ℤ :=
  if y - Rat.floor y = 1/2 then
    (if 2 ∣ Rat.floor y then Rat.floor y else Rat.floor y + 1)
  else Rat.floor (y + 1/2)

/-- Python round(x, 2) on rationals: round half to even at two decimals. -/
def pyRound2Q (x : ℚ) : ℚ := (roundHalfEvenQ (100 * x) : ℚ) / 100

/-- Rounding half to even of a real number to an integer, as Python
round() does, idealising binary floats as reals. -/
noncomputable def roundHalfEvenR (y : ℝ) : ℤ :=
  if Int.fract y = 1/2 then (if 2 ∣ ⌊y⌋ then ⌊y⌋ else ⌊y⌋ + 1) else round y

/-- Python round(x, 2) on reals: round half to even at two decimals. -/
noncomputable def pyRound2R (x : ℝ) : ℝ := (roundHalfEvenR (100 * x) : ℝ) / 100

/-- One entry of the stock_data["historical_data"] list consumed by the
risk agent.  Only the "close" key is read by the embedded methods; a day
whose close is absent in the Python dict is modelled with close = none. -/
structure TradingDay where
  close : Option ℚ
deriving DecidableEq

/-- The price extraction both risk methods perform:
prices = [float(day.get("close", 0)) for day in historical_data if day.get("close")].
The truthiness filter drops both absent closes (None) and zero closes. -/
def extract_prices (hd : List TradingDay) : List ℚ :=
  (hd.filterMap TradingDay.close).filter (fun p => ¬ p = 0)

/-- returns = [(prices[i] - prices[i-1]) / prices[i-1] for i in range(1, len(prices))]. -/
def daily_returns : List ℚ → List ℚ
  | p0 :: p1 :: rest => (p1 - p0) / p0 :: daily_returns (p1 :: rest)
  | _ => []

/-- cumulative_returns = [1.0] then repeatedly appending last * (1 + ret). -/
def cumulative_returns (returns : List ℚ) : List ℚ :=
  List.scanl (fun acc ret => acc * (1 + ret)) 1 returns

/-- running_max = [c[0]] then repeatedly appending max(last, val) over c[1:]. -/
def running_max : List ℚ → List ℚ
  | [] => []
  | c0 :: cs => List.scanl max c0 cs

/-- Python min() over a list; the empty case (on which Python raises and
which is unreachable in calculate_max_drawdown, since cumulative_returns
starts with 1.0) is given the junk value 0. -/
def pyMin : List ℚ → ℚ
  | [] => 0
  | x :: xs => xs.foldl min x

/-- drawdowns = [(cumulative[i] - running_max[i]) / running_max[i] ...],
built from the compounded cumulative-return curve of the price list. -/
def drawdowns_list (prices : List ℚ) : List ℚ :=
  let cum := cumulative_returns (daily_returns prices)
  List.zipWith (fun c m => (c - m) / m) cum (running_max cum)

/-- RiskAnalysisAgent.calculate_max_drawdown: short history and short price
list return 0.0; otherwise build the compounded cumulative-return curve,
its running maximum, the drawdown list, and report the rounded minimum
drawdown as a percentage. -/
def calculate_max_drawdown (historical_data : List TradingDay) : ℚ :=
  if historical_data.length < 10 then 0 else
  if (extract_prices historical_data).length < 2 then 0 else
  pyRound2Q (pyMin (drawdowns_list (extract_prices historical_data)) * 100)

/-- The risk_metrics dict assembled by execute_task and consumed by
generate_risk_recommendations; all four keys are always present there. -/
structure RiskMetrics where
  volatility : ℚ
  max_drawdown : ℚ
  beta : ℚ
  sharpe_ratio : ℚ
deriving DecidableEq

/-- Message appended for volatility > 30. -/
def highVolatilityMsg : String := "⚠️ 高波动性：建议控制仓位，避免过度集中"

/-- Message appended for max_drawdown < -30. -/
def largeDrawdownMsg : String := "⚠️ 大幅回撤风险：历史上曾有较大跌幅，需谨慎"

/-- Message appended for beta > 1.5. -/
def highBetaMsg : String := "⚠️ 高 Beta：该股票波动性高于市场平均水平，适合风险偏好较高的投资者"

/-- Message appended for beta < 0.5. -/
def lowBetaMsg : String := "✅ 低 Beta：该股票相对稳定，适合保守投资者"

/-- Message appended for sharpe_ratio < 0. -/
def negativeSharpeMsg : String := "⚠️ 负夏普比率：风险调整后收益为负，不建议持有"

/-- Message appended for sharpe_ratio > 1.0. -/
def goodSharpeMsg : String := "✅ 良好的风险收益比：夏普比率 > 1.0，风险调整后收益较好"

/-- Fallback message when no threshold rule fired. -/
def normalRangeMsg : String := "✅ 风险指标在合理范围内"

/-- RiskAnalysisAgent.generate_risk_recommendations: sequential threshold
rules over volatility, max drawdown, beta and Sharpe ratio, with a
non-empty fallback. -/
def generate_risk_recommendations (risk_metrics : RiskMetrics) : List String :=
  let recommendations :=
    (if risk_metrics.volatility > 30 then [highVolatilityMsg] else []) ++
    (if risk_metrics.max_drawdown < -30 then [largeDrawdownMsg] else []) ++
    (if risk_metrics.beta > 3/2 then [highBetaMsg]
     else if risk_metrics.beta < 1/2 then [lowBetaMsg] else []) ++
    (if risk_metrics.sharpe_ratio < 0 then [negativeSharpeMsg]
     else if risk_metrics.sharpe_ratio > 1 then [goodSharpeMsg] else [])
  if recommendations = [] then [normalRangeMsg] else recommendations

/-- RiskAnalysisAgent.calculate_annualized_volatility:
round(volatility * (trading_days ** 0.5), 2), with trading_days = 252 by
default at every call site. -/
noncomputable def calculate_annualized_volatility (volatility : ℝ)
    (trading_days : ℕ) : ℝ :=
  pyRound2R (volatility * Real.sqrt trading_days)

/-- The Python default risk_free_rate = 0.02 of calculate_sharpe_ratio. -/
noncomputable def default_risk_free_rate : ℝ := 1/50

/-- The daily return list of calculate_sharpe_ratio.  Python computes the
returns on floats; idealised over the rationals (where consecutive-quotient
arithmetic is exact) and cast into the reals, where the square root and
division below live. -/
def sharpe_returns (historical_data : List TradingDay) : List ℝ :=
  (daily_returns (extract_prices historical_data)).map (fun q => (q : ℝ))

/-- avg_return = sum(returns) / len(returns) inside calculate_sharpe_ratio. -/
noncomputable def sharpe_avg_return (historical_data : List TradingDay) : ℝ :=
  (sharpe_returns historical_data).sum / (sharpe_returns historical_data).length

/-- std_return = (sum((r - avg_return) ** 2 for r in returns) / len(returns)) ** 0.5. -/
noncomputable def sharpe_std_return (historical_data : List TradingDay) : ℝ :=
  Real.sqrt
    (((sharpe_returns historical_data).map
        (fun r => (r - sharpe_avg_return historical_data) ^ 2)).sum /
      (sharpe_returns historical_data).length)

/-- annual_std = std_return * (252 ** 0.5). -/
noncomputable def sharpe_annual_std (historical_data : List TradingDay) : ℝ :=
  sharpe_std_return historical_data * Real.sqrt 252

/-- RiskAnalysisAgent.calculate_sharpe_ratio: short history and short price
list return 0.0; annual_std == 0 returns 0.0; otherwise the rounded ratio
(annual_return - risk_free_rate) / annual_std. -/
noncomputable def calculate_sharpe_ratio (historical_data : List TradingDay)
    (risk_free_rate : ℝ) : ℝ :=
  if historical_data.length < 10 then 0 else
  if (extract_prices historical_data).length < 2 then 0 else
  if sharpe_annual_std historical_data = 0 then 0 else
  pyRound2R ((sharpe_avg_return historical_data * 252 - risk_free_rate) /
    sharpe_annual_std historical_data)

/-- One element of the news_data list consumed by
EmotionalAnalysisAgent.analyze_sentiment_trend.  Only the "published_at"
and "sentiment" keys are read; the Python dict defaults (missing
published_at reads as "", missing sentiment reads as "neutral") are
represented by passing those strings. -/
structure NewsItem where
  published_at : String
  sentiment : String
deriving DecidableEq

/-- The per-article numeric mapping inside avg_sentiment:
positive maps to 0.8, negative to 0.2, anything else to 0.5. -/
def sentiment_score (sentiment : String) : ℚ :=
  if sentiment = "positive" then 4/5
  else if sentiment = "negative" then 1/5
  else 1/2

/-- avg_sentiment(news_list): mean of the mapped scores, 0.5 on an empty
list. -/
def avg_sentiment (news_list : List NewsItem) : ℚ :=
  let scores := news_list.map (fun n => sentiment_score n.sentiment)
  if scores = [] then 1/2 else scores.sum / scores.length

/-- sorted(news_data, key=lambda x: x.get("published_at", "")): a stable
sort on the published_at key; Python sorted and insertion sort are both
stable, hence agree. -/
def sortNews (news_data : List NewsItem) : List NewsItem :=
  List.insertionSort (fun a b => a.published_at ≤ b.published_at) news_data

/-- A value of the heterogeneous result dict of analyze_sentiment_trend:
either a string or a number. -/
inductive JVal where
  | s : String → JVal
  | q : ℚ → JVal
deriving DecidableEq

/-- Fixed two-decimal rendering of a nonnegative rational, as the Python
format spec .2f does inside the description f-string. -/
def format2 (x : ℚ) : String :=
  let n := roundHalfEvenQ (100 * x)
  let frac := n % 100
  toString (n / 100) ++ "." ++
    (if frac < 10 then "0" ++ toString frac else toString frac)

/-- The description field of the analyze_sentiment_trend result. -/
def trend_description (change : ℚ) : String :=
  "情绪 " ++ (if 0 < change then "改善" else if change < 0 then "恶化" else "稳定") ++
    "，变化 " ++ format2 |change|

/-- EmotionalAnalysisAgent.analyze_sentiment_trend, returning the Python
dict as an association list.  An empty news list returns only the trend
and change keys; otherwise the chronologically sorted list is split at
len // 2, the two halves are averaged, and the trend is classified from
the change with the 0.1 band. -/
def analyze_sentiment_trend (news_data : List NewsItem) : List (String × JVal) :=
  if news_data.isEmpty then [("trend", .s "STABLE"), ("change", .q 0)]
  else
    let sorted_news := sortNews news_data
    let mid := sorted_news.length / 2
    let first_half := sorted_news.take mid
    let second_half := sorted_news.drop mid
    let first_avg := avg_sentiment first_half
    let second_avg := avg_sentiment second_half
    let change := second_avg - first_avg
    let trend : String :=
      if change > 1/10 then "IMPROVING"
      else if change < -(1/10) then "DETERIORATING"
      else "STABLE"
    [("trend", .s trend), ("change", .q (pyRound2Q change)),
     ("first_half_sentiment", .q (pyRound2Q first_avg)),
     ("second_half_sentiment", .q (pyRound2Q second_avg)),
     ("description", .s (trend_description change))]

/-- The sentiment-trend classification exactly as the specification words
it: split the chronologically sorted news into first and second half,
compare the halves' mean scores, and classify with the 0.1 hysteresis
band.  Stated separately from the code embedding so the two can be
compared. -/
def specSentimentTrend (news_data : List NewsItem) : String :=
  let sorted_news := sortNews news_data
  let mid := sorted_news.length / 2
  let change :=
    avg_sentiment (sorted_news.drop mid) - avg_sentiment (sorted_news.take mid)
  if change > 1/10 then "IMPROVING"
  else if change < -(1/10) then "DETERIORATING"
  else "STABLE"

/-- Alert lifecycle states, as the AlertStatus enum of the frontend types
(pending, triggered, acknowledged). -/
inductive AlertStatus where
  | pending
  | triggered
  | acknowledged
deriving DecidableEq

/-- One entry of the trigger_history list of an alert, as declared in the
frontend Alert type. -/
structure TriggerEvent where
  timestamp : ℕ
  price : ℚ
  change_percent : ℚ
  baseline_price : ℚ
deriving DecidableEq

/-- An alert record, as declared in the frontend Alert type; the breach
direction is a price-drop alert, breaching when the percent change falls
to or below thresholdPercent (a negative number such as -5). -/
structure AlertRecord where
  status : AlertStatus
  triggerCount : ℕ
  requiredTriggers : ℕ
  triggerHistory : List TriggerEvent
  thresholdPercent : ℚ
  baselinePrice : ℚ
  recoveryMargin : ℚ
  message : String
  triggeredAt : Option ℕ
  acknowledgedAt : Option ℕ
deriving DecidableEq

/-- The transition summary surfaced to the evaluate caller. -/
structure EvalResult where
  previousStatus : AlertStatus
  newStatus : AlertStatus
  triggerCount : ℕ
deriving DecidableEq

/-- Modelled from the spec: the deterministic human-readable message
generated from the breach parameters at the pending-to-triggered
transition; the backend service that renders it is not among the sources. -/
def breachMessage (a : AlertRecord) (price changePercent : ℚ) : String :=
  "Price " ++ toString price ++ " is " ++ toString changePercent ++
    "% from baseline " ++ toString a.baselinePrice ++
    " (threshold " ++ toString a.thresholdPercent ++ "%)"

/-- Modelled from the spec: one evaluation cycle of the alert trigger
state machine (spec 4.4); the backend service implementing it is not among
the sources, only its TypeScript type declarations and HTTP callers are.
On a PENDING alert: a breaching observation appends to the trigger history
and increments the counter, transitioning to TRIGGERED exactly when the
counter reaches requiredTriggers; a recovery crossing (percent change at
or above recoveryMargin) resets the counter and history; any other
observation leaves the record unchanged.  On a non-PENDING alert the
record is left untouched. -/
def evaluateAlert (a : AlertRecord) (price : ℚ) (ts : ℕ) :
    AlertRecord × EvalResult :=
  match a.status with
  | .pending =>
    let changePercent := (price - a.baselinePrice) / a.baselinePrice * 100
    if changePercent ≤ a.thresholdPercent then
      let count := a.triggerCount + 1
      let hist := a.triggerHistory ++ [⟨ts, price, changePercent, a.baselinePrice⟩]
      if a.requiredTriggers ≤ count then
        ({ a with
            status := .triggered
            triggerCount := count
            triggerHistory := hist
            triggeredAt := some ts
            message := breachMessage a price changePercent },
         ⟨.pending, .triggered, count⟩)
      else
        ({ a with triggerCount := count, triggerHistory := hist },
         ⟨.pending, .pending, count⟩)
    else if a.recoveryMargin ≤ changePercent then
      ({ a with triggerCount := 0, triggerHistory := [] },
       ⟨.pending, .pending, 0⟩)
    else
      (a, ⟨.pending, .pending, a.triggerCount⟩)
  | .triggered => (a, ⟨.triggered, .triggered, a.triggerCount⟩)
  | .acknowledged => (a, ⟨.acknowledged, .acknowledged, a.triggerCount⟩)

/-- Replaying a sequence of (price, timestamp) observations through the
state machine. -/
def replayAlert (a : AlertRecord) (obs : List (ℚ × ℕ)) : AlertRecord :=
  obs.foldl (fun st ob => (evaluateAlert st ob.1 ob.2).1) a

/-- The error raised on an invalid alert state transition. -/
inductive AlertError where
  | invalidStateTransition
deriving DecidableEq

/-- Modelled from the spec: acknowledge() (spec 4.4 rule 5), valid only
from TRIGGERED, stamping acknowledgedAt, and raising
InvalidStateTransitionError from any other state; the backend endpoint
implementing it is not among the sources. -/
def acknowledge (a : AlertRecord) (ts : ℕ) : Except AlertError AlertRecord :=
  match a.status with
  | .triggered =>
    .ok { a with status := .acknowledged, acknowledgedAt := some ts }
  | _ => .error .invalidStateTransition

/-- A ten-day history whose seven leading days carry no close price and
whose three remaining closes are constant: annualized volatility 0. -/
def constantPriceHistory : List TradingDay :=
  [⟨none⟩, ⟨none⟩, ⟨none⟩, ⟨none⟩, ⟨none⟩, ⟨none⟩, ⟨none⟩,
   ⟨some 1⟩, ⟨some 1⟩, ⟨some 1⟩]

/-- A ten-day history with nonzero volatility whose annualized mean return
equals the default risk-free rate, so its computed Sharpe ratio is exactly
0.0: daily returns 127/12600 and -5/504 average to 1/12600 = 0.02/252. -/
def zeroSharpeHistory : List TradingDay :=
  [⟨none⟩, ⟨none⟩, ⟨none⟩, ⟨none⟩, ⟨none⟩, ⟨none⟩, ⟨none⟩,
   ⟨some 1⟩, ⟨some (12727/12600)⟩, ⟨some (6350773/6350400)⟩]

/-- A ten-day history accepted by both risk methods (ten entries, two
truthy closes) whose second close is negative: the drawdown formula then
leaves the claimed interval. -/
def negativeCloseHistory : List TradingDay :=
  [⟨some 1⟩, ⟨some (-1)⟩, ⟨none⟩, ⟨none⟩, ⟨none⟩,
   ⟨none⟩, ⟨none⟩, ⟨none⟩, ⟨none⟩, ⟨none⟩]

lemma ratFloor_eq_intFloor (q : ℚ) : Rat.floor q = ⌊q⌋ :=
  (Rat.floor_def' q).trans Rat.floor_def.symm

lemma roundHalfEvenQ_eq (y : ℚ) :
    roundHalfEvenQ y =
      if Int.fract y = 1/2 then (if 2 ∣ ⌊y⌋ then ⌊y⌋ else ⌊y⌋ + 1)
      else ⌊y + 1/2⌋ := by
  unfold roundHalfEvenQ
  rw [ratFloor_eq_intFloor, ratFloor_eq_intFloor, Int.fract]

lemma abs_roundHalfEvenR_sub (y : ℝ) : |(roundHalfEvenR y : ℝ) - y| ≤ 1/2 := by
  unfold roundHalfEvenR
  have hf : Int.fract y = y - ⌊y⌋ := rfl
  split_ifs with h1 h2
  · have he : (⌊y⌋ : ℝ) - y = -(1/2) := by
      rw [hf] at h1; linarith
    rw [he, abs_neg, abs_of_nonneg (by norm_num : (0:ℝ) ≤ 1/2)]
  · have he : ((⌊y⌋ + 1 : ℤ) : ℝ) - y = 1/2 := by
      push_cast
      rw [hf] at h1; linarith
    rw [he, abs_of_nonneg (by norm_num : (0:ℝ) ≤ 1/2)]
  · rw [abs_sub_comm]
    exact abs_sub_round y

lemma abs_pyRound2R_sub (x : ℝ) : |pyRound2R x - x| ≤ 1/200 := by
  have h := abs_roundHalfEvenR_sub (100 * x)
  have key : pyRound2R x - x = ((roundHalfEvenR (100 * x) : ℝ) - 100 * x) / 100 := by
    unfold pyRound2R; ring
  rw [key, abs_div, abs_of_pos (show (0:ℝ) < 100 by norm_num)]
  linarith

/-- C4: for every daily volatility, the annualized volatility computed by
calculate_annualized_volatility with the default 252 trading days equals
the daily volatility multiplied by the square root of 252, within the
1/200 tolerance introduced by rounding to two decimals. -/
theorem annualized_volatility_is_sqrt252_scaled (volatility : ℝ) :
    |calculate_annualized_volatility volatility 252 -
      volatility * Real.sqrt 252| ≤ 1/200 := by
  unfold calculate_annualized_volatility
  have h : ((252 : ℕ) : ℝ) = (252 : ℝ) := by norm_num
  rw [h]
  exact abs_pyRound2R_sub (volatility * Real.sqrt 252)

lemma pyRound2Q_of_mul_int (x : ℚ) (n : ℤ) (h : 100 * x = n) : pyRound2Q x = x := by
  unfold pyRound2Q
  rw [roundHalfEvenQ_eq, h]
  rw [if_neg (by rw [Int.fract_intCast]; norm_num)]
  rw [Int.floor_int_add]
  rw [show (⌊(1/2 : ℚ)⌋ : ℤ) = 0 from by norm_num]
  push_cast
  rw [add_zero]
  rw [h.symm]
  ring

/-- C9: for every risk-metrics input the recommendation list is non-empty;
volatility above 30 contributes the high-volatility caution, a negative
Sharpe ratio contributes the negative risk-adjusted-return flag, and when
no threshold rule fires the list is exactly the normal-range fallback. -/
theorem risk_recommendations_cover_thresholds (m : RiskMetrics) :
    generate_risk_recommendations m ≠ [] ∧
    (30 < m.volatility → highVolatilityMsg ∈ generate_risk_recommendations m) ∧
    (m.sharpe_ratio < 0 → negativeSharpeMsg ∈ generate_risk_recommendations m) ∧
    (m.volatility ≤ 30 → -30 ≤ m.max_drawdown → 1/2 ≤ m.beta → m.beta ≤ 3/2 →
      0 ≤ m.sharpe_ratio → m.sharpe_ratio ≤ 1 →
      generate_risk_recommendations m = [normalRangeMsg]) := by
  refine ⟨?_, ?_, ?_, ?_⟩
  · simp only [generate_risk_recommendations]
    split_ifs <;> simp_all
  · intro hv
    simp only [generate_risk_recommendations]
    split_ifs <;> simp_all
  · intro hs
    simp only [generate_risk_recommendations]
    split_ifs <;> simp_all
  · intro h1 h2 h3 h4 h5 h6
    simp only [generate_risk_recommendations]
    rw [if_neg (not_lt.mpr h1), if_neg (not_lt.mpr h2), if_neg (not_lt.mpr h4),
      if_neg (not_lt.mpr h3), if_neg (not_lt.mpr h5), if_neg (not_lt.mpr h6)]
    simp

theorem risk_recommendations_witness :
    highVolatilityMsg ∈ generate_risk_recommendations ⟨35, -10, 1, -1/2⟩ ∧
    negativeSharpeMsg ∈ generate_risk_recommendations ⟨35, -10, 1, -1/2⟩ ∧
    generate_risk_recommendations ⟨20, -10, 1, 1/2⟩ = [normalRangeMsg] :=
  ⟨(risk_recommendations_cover_thresholds ⟨35, -10, 1, -1/2⟩).2.1 (by norm_num),
   (risk_recommendations_cover_thresholds ⟨35, -10, 1, -1/2⟩).2.2.1 (by norm_num),
   (risk_recommendations_cover_thresholds ⟨20, -10, 1, 1/2⟩).2.2.2 (by norm_num)
     (by norm_num) (by norm_num) (by norm_num) (by norm_num) (by norm_num)⟩

/-- C7: the trend field computed by analyze_sentiment_trend coincides, on
every news list, with the specification's classification: split the
chronologically sorted list into first and second half, compare the
halves' mean scores (per-article mapping positive 0.8, negative 0.2,
neutral 0.5), and classify IMPROVING when the difference exceeds 0.1,
DETERIORATING when it is below -0.1, STABLE otherwise. -/
theorem sentiment_trend_matches_spec (news_data : List NewsItem) :
    (analyze_sentiment_trend news_data).lookup "trend" =
      some (JVal.s (specSentimentTrend news_data)) ∧
    sentiment_score "positive" = 4/5 ∧
    sentiment_score "negative" = 1/5 ∧
    sentiment_score "neutral" = 1/2 := by
  refine ⟨?_, by simp [sentiment_score], by simp [sentiment_score],
    by simp [sentiment_score]⟩
  by_cases he : news_data = []
  · subst he
    simp [analyze_sentiment_trend, specSentimentTrend, sortNews,
      List.insertionSort, avg_sentiment, List.lookup]
    norm_num
  · simp only [analyze_sentiment_trend, specSentimentTrend,
      List.isEmpty_iff, he, if_false, List.lookup]
    simp

/-- C8 counterexample: on an empty news list the sentiment-trend result
carries no insufficientData key, no score key and no label key, so the
claimed insufficient-data flag and neutral score/label are absent. -/
theorem sentiment_empty_counterexample :
    (analyze_sentiment_trend []).lookup "insufficientData" = none ∧
    (analyze_sentiment_trend []).lookup "score" = none ∧
    (analyze_sentiment_trend []).lookup "label" = none := by
  refine ⟨?_, ?_, ?_⟩ <;> simp [analyze_sentiment_trend, List.lookup]

/-- C8 amended: on an empty news list analyze_sentiment_trend returns the
dict with exactly the keys trend (STABLE) and change (0), raising no
exception; it carries no explicit insufficient-data flag and no
score/label pair. -/
theorem sentiment_empty_returns_stable :
    analyze_sentiment_trend [] = [("trend", JVal.s "STABLE"), ("change", JVal.q 0)] := by
  simp [analyze_sentiment_trend]

lemma analyze_sentiment_trend_single (n : NewsItem) :
    analyze_sentiment_trend [n] =
      [("trend", JVal.s (if sentiment_score n.sentiment - 1/2 > 1/10 then "IMPROVING"
          else if sentiment_score n.sentiment - 1/2 < -(1/10) then "DETERIORATING"
          else "STABLE")),
       ("change", JVal.q (pyRound2Q (sentiment_score n.sentiment - 1/2))),
       ("first_half_sentiment", JVal.q (pyRound2Q (1/2))),
       ("second_half_sentiment", JVal.q (pyRound2Q (sentiment_score n.sentiment))),
       ("description", JVal.s (trend_description (sentiment_score n.sentiment - 1/2)))] := by
  have hs : sortNews [n] = [n] := by
    simp [sortNews, List.insertionSort, List.orderedInsert]
  simp [analyze_sentiment_trend, hs, avg_sentiment]

/-- C10: on a single-article list the split index is 0, the empty first
half defaults to mean 0.5, and the trend is classified from that one
article: positive gives IMPROVING with change 0.3, negative gives
DETERIORATING with change -0.3, and anything else gives STABLE with
change 0. -/
theorem single_article_reports_trend (n : NewsItem) :
    avg_sentiment ((sortNews [n]).take ((sortNews [n]).length / 2)) = 1/2 ∧
    (n.sentiment = "positive" →
      (analyze_sentiment_trend [n]).lookup "trend" = some (JVal.s "IMPROVING") ∧
      (analyze_sentiment_trend [n]).lookup "change" = some (JVal.q (3/10))) ∧
    (n.sentiment = "negative" →
      (analyze_sentiment_trend [n]).lookup "trend" = some (JVal.s "DETERIORATING") ∧
      (analyze_sentiment_trend [n]).lookup "change" = some (JVal.q (-(3/10)))) ∧
    (¬ n.sentiment = "positive" → ¬ n.sentiment = "negative" →
      (analyze_sentiment_trend [n]).lookup "trend" = some (JVal.s "STABLE") ∧
      (analyze_sentiment_trend [n]).lookup "change" = some (JVal.q 0)) := by
  have hs : sortNews [n] = [n] := by
    simp [sortNews, List.insertionSort, List.orderedInsert]
  refine ⟨?_, ?_, ?_, ?_⟩
  · rw [hs]
    simp [avg_sentiment]
  · intro hp
    have hscore : sentiment_score n.sentiment = 4/5 := by rw [hp]; simp [sentiment_score]
    have hch : sentiment_score n.sentiment - 1/2 = 3/10 := by rw [hscore]; norm_num
    have hround : pyRound2Q (3/10) = 3/10 := pyRound2Q_of_mul_int _ 30 (by norm_num)
    rw [analyze_sentiment_trend_single, hch, hround]
    constructor
    · rw [if_pos (by norm_num)]
      simp [List.lookup]
    · simp [List.lookup]
  · intro hp
    have hscore : sentiment_score n.sentiment = 1/5 := by
      rw [hp]; simp [sentiment_score]
    have hch : sentiment_score n.sentiment - 1/2 = -(3/10) := by rw [hscore]; norm_num
    have hround : pyRound2Q (-(3/10)) = -(3/10) :=
      pyRound2Q_of_mul_int _ (-30) (by norm_num)
    rw [analyze_sentiment_trend_single, hch, hround]
    constructor
    · rw [if_neg (by norm_num), if_pos (by norm_num)]
      simp [List.lookup]
    · simp [List.lookup]
  · intro hp1 hp2
    have hscore : sentiment_score n.sentiment = 1/2 := by
      simp [sentiment_score, hp1, hp2]
    have hch : sentiment_score n.sentiment - 1/2 = 0 := by rw [hscore]; norm_num
    have hround : pyRound2Q 0 = 0 := pyRound2Q_of_mul_int _ 0 (by norm_num)
    rw [analyze_sentiment_trend_single, hch, hround]
    constructor
    · rw [if_neg (by norm_num), if_neg (by norm_num)]
      simp [List.lookup]
    · simp [List.lookup]

theorem single_article_reports_trend_witness :
    (analyze_sentiment_trend [⟨"2025-10-29", "positive"⟩]).lookup "trend" =
      some (JVal.s "IMPROVING") ∧
    (analyze_sentiment_trend [⟨"2025-10-29", "negative"⟩]).lookup "trend" =
      some (JVal.s "DETERIORATING") ∧
    (analyze_sentiment_trend [⟨"2025-10-29", "neutral"⟩]).lookup "trend" =
      some (JVal.s "STABLE") :=
  ⟨((single_article_reports_trend ⟨"2025-10-29", "positive"⟩).2.1 rfl).1,
   ((single_article_reports_trend ⟨"2025-10-29", "negative"⟩).2.2.1 rfl).1,
   ((single_article_reports_trend ⟨"2025-10-29", "neutral"⟩).2.2.2
      (by simp) (by simp)).1⟩

lemma evaluateAlert_of_triggered (a : AlertRecord) (price : ℚ) (ts : ℕ)
    (h : a.status = .triggered) :
    evaluateAlert a price ts = (a, ⟨.triggered, .triggered, a.triggerCount⟩) := by
  simp [evaluateAlert, h]

lemma replayAlert_cons (a : AlertRecord) (ob : ℚ × ℕ) (obs : List (ℚ × ℕ)) :
    replayAlert a (ob :: obs) = replayAlert (evaluateAlert a ob.1 ob.2).1 obs := rfl

/-- C1: on a PENDING alert a breaching observation that lifts the counter
to requiredTriggers fires the PENDING-to-TRIGGERED transition and stamps
triggeredAt; conversely any evaluation that lands a PENDING alert in
TRIGGERED surfaced a counter at or above requiredTriggers on a breaching
observation; and the transition fires at most once per lifecycle: once
TRIGGERED, replaying any further observations leaves the record
untouched, so no second PENDING-to-TRIGGERED transition can occur. -/
theorem alert_trigger_exactly_once (a : AlertRecord) (price : ℚ) (ts : ℕ) :
    (a.status = .pending →
      (price - a.baselinePrice) / a.baselinePrice * 100 ≤ a.thresholdPercent →
      a.requiredTriggers ≤ a.triggerCount + 1 →
      (evaluateAlert a price ts).2.previousStatus = .pending ∧
      (evaluateAlert a price ts).2.newStatus = .triggered ∧
      (evaluateAlert a price ts).1.status = .triggered ∧
      (evaluateAlert a price ts).1.triggeredAt = some ts ∧
      (evaluateAlert a price ts).2.triggerCount = a.triggerCount + 1) ∧
    ((evaluateAlert a price ts).1.status = .triggered → a.status = .pending →
      a.requiredTriggers ≤ (evaluateAlert a price ts).2.triggerCount ∧
      (price - a.baselinePrice) / a.baselinePrice * 100 ≤ a.thresholdPercent) ∧
    (∀ obs : List (ℚ × ℕ), a.status = .triggered → replayAlert a obs = a) := by
  refine ⟨?_, ?_, ?_⟩
  · intro h1 h2 h3
    simp [evaluateAlert, h1, h2, h3]
  · intro hres hpend
    simp only [evaluateAlert, hpend] at hres ⊢
    split_ifs at hres ⊢ with hb hreach hrec
    · exact ⟨hreach, hb⟩
    all_goals simp_all
  · intro obs
    induction obs generalizing a with
    | nil => intro _; rfl
    | cons ob rest ih =>
      intro h
      rw [replayAlert_cons, evaluateAlert_of_triggered a ob.1 ob.2 h]
      exact ih a h

theorem alert_trigger_exactly_once_witness :
    ((evaluateAlert ⟨.pending, 2, 3, [], -5, 100, 0, "", none, none⟩ 93 3).2.newStatus
        = .triggered ∧
      (evaluateAlert ⟨.pending, 2, 3, [], -5, 100, 0, "", none, none⟩ 93 3).1.triggeredAt
        = some 3) ∧
    replayAlert ⟨.triggered, 3, 3, [], -5, 100, 0, "", some 3, none⟩ [(93, 4), (80, 5)]
      = ⟨.triggered, 3, 3, [], -5, 100, 0, "", some 3, none⟩ := by
  have h := alert_trigger_exactly_once
    ⟨.pending, 2, 3, [], -5, 100, 0, "", none, none⟩ 93 3
  have h1 := h.1 rfl (by norm_num) (by norm_num)
  refine ⟨⟨h1.2.1, h1.2.2.2.1⟩, ?_⟩
  have h2 := alert_trigger_exactly_once
    ⟨.triggered, 3, 3, [], -5, 100, 0, "", some 3, none⟩ 93 4
  exact h2.2.2 [(93, 4), (80, 5)] rfl

/-- C2: acknowledge() on a PENDING alert raises
InvalidStateTransitionError; on a TRIGGERED alert it succeeds exactly
once, moving the record to ACKNOWLEDGED and stamping acknowledgedAt, and
any repeated acknowledge on the resulting record raises
InvalidStateTransitionError instead of succeeding as a no-op. -/
theorem acknowledge_trigger_lifecycle (a : AlertRecord) (ts ts2 : ℕ) :
    (a.status = .pending → acknowledge a ts = .error .invalidStateTransition) ∧
    (a.status = .triggered →
      acknowledge a ts =
        .ok { a with status := .acknowledged, acknowledgedAt := some ts } ∧
      (∀ b : AlertRecord, acknowledge a ts = .ok b →
        b.status = .acknowledged ∧ b.acknowledgedAt = some ts ∧
        acknowledge b ts2 = .error .invalidStateTransition)) := by
  refine ⟨?_, ?_⟩
  · intro h
    simp [acknowledge, h]
  · intro h
    refine ⟨by simp [acknowledge, h], ?_⟩
    intro b hb
    simp [acknowledge, h] at hb
    refine ⟨by rw [← hb], by rw [← hb], ?_⟩
    rw [← hb]
    simp [acknowledge]

theorem acknowledge_trigger_lifecycle_witness :
    acknowledge ⟨.pending, 0, 3, [], -5, 100, 0, "", none, none⟩ 7
      = .error .invalidStateTransition ∧
    acknowledge ⟨.triggered, 3, 3, [], -5, 100, 0, "", some 3, none⟩ 7
      = .ok ⟨.acknowledged, 3, 3, [], -5, 100, 0, "", some 3, some 7⟩ ∧
    acknowledge ⟨.acknowledged, 3, 3, [], -5, 100, 0, "", some 3, some 7⟩ 8
      = .error .invalidStateTransition := by
  have hp := (acknowledge_trigger_lifecycle
    ⟨.pending, 0, 3, [], -5, 100, 0, "", none, none⟩ 7 8).1 rfl
  have ht := (acknowledge_trigger_lifecycle
    ⟨.triggered, 3, 3, [], -5, 100, 0, "", some 3, none⟩ 7 8).2 rfl
  refine ⟨hp, ht.1, ?_⟩
  exact (ht.2 ⟨.acknowledged, 3, 3, [], -5, 100, 0, "", some 3, some 7⟩ ht.1).2.2

lemma running_max_cons (c0 : ℚ) (cs : List ℚ) :
    running_max (c0 :: cs) = List.scanl max c0 cs := rfl

lemma one_add_daily_returns_pos (ps : List ℚ) (hpos : ∀ p ∈ ps, 0 < p) :
    ∀ r ∈ daily_returns ps, 0 < 1 + r := by
  induction ps with
  | nil => intro r hr; simp [daily_returns] at hr
  | cons p0 rest ih =>
    cases rest with
    | nil => intro r hr; simp [daily_returns] at hr
    | cons p1 rest2 =>
      intro r hr
      rw [daily_returns] at hr
      rcases List.mem_cons.mp hr with h | h
      · subst h
        have hp0 : 0 < p0 := hpos p0 (by simp)
        have hp1 : 0 < p1 := hpos p1 (by simp)
        have he : 1 + (p1 - p0) / p0 = p1 / p0 := by field_simp
        rw [he]
        exact div_pos hp1 hp0
      · exact ih (fun p hp => hpos p (by simp [hp])) r h

lemma daily_returns_nonneg (ps : List ℚ) (hpos : ∀ p ∈ ps, 0 < p)
    (hchain : List.Chain' (· < ·) ps) : ∀ r ∈ daily_returns ps, 0 ≤ r := by
  induction ps with
  | nil => intro r hr; simp [daily_returns] at hr
  | cons p0 rest ih =>
    cases rest with
    | nil => intro r hr; simp [daily_returns] at hr
    | cons p1 rest2 =>
      intro r hr
      rw [daily_returns] at hr
      rw [List.chain'_cons] at hchain
      rcases List.mem_cons.mp hr with h | h
      · subst h
        have hp0 : 0 < p0 := hpos p0 (by simp)
        exact div_nonneg (by linarith [hchain.1]) hp0.le
      · exact ih (fun p hp => hpos p (by simp [hp])) hchain.2 r h

lemma mem_scanl_mul_pos (rets : List ℚ) (b : ℚ) (hb : 0 < b)
    (hrets : ∀ r ∈ rets, 0 < 1 + r) :
    ∀ x ∈ List.scanl (fun acc ret => acc * (1 + ret)) b rets, 0 < x := by
  induction rets generalizing b with
  | nil =>
    intro x hx
    rw [List.scanl_nil] at hx
    simp at hx
    rwa [hx]
  | cons r rs ih =>
    intro x hx
    rw [List.scanl_cons, List.singleton_append] at hx
    rcases List.mem_cons.mp hx with h | h
    · rwa [h]
    · exact ih (b * (1 + r)) (mul_pos hb (hrets r (by simp)))
        (fun q hq => hrets q (by simp [hq])) x h

lemma drawdown_pair_bounds (c m : ℚ) (hc : 0 < c) (hm : 0 < m) (hcm : c ≤ m) :
    -1 < (c - m) / m ∧ (c - m) / m ≤ 0 := by
  constructor
  · rw [lt_div_iff₀ hm]
    linarith
  · rw [div_nonpos_iff]
    right
    constructor <;> linarith

lemma zipWith_drawdown_bounds (l : List ℚ) (c0 m : ℚ) (hc : 0 < c0) (hm : 0 < m)
    (hcm : c0 ≤ m) (hl : ∀ x ∈ l, 0 < x) :
    ∀ d ∈ List.zipWith (fun c m2 => (c - m2) / m2) (c0 :: l) (List.scanl max m l),
      -1 < d ∧ d ≤ 0 := by
  induction l generalizing c0 m with
  | nil =>
    intro d hd
    rw [List.scanl_nil] at hd
    simp only [List.zipWith, List.mem_singleton] at hd
    subst hd
    exact drawdown_pair_bounds c0 m hc hm hcm
  | cons x xs ih =>
    intro d hd
    rw [List.scanl_cons, List.singleton_append, List.zipWith_cons_cons] at hd
    rcases List.mem_cons.mp hd with h | h
    · subst h
      exact drawdown_pair_bounds c0 m hc hm hcm
    · exact ih x (max m x) (hl x (by simp)) (lt_of_lt_of_le hm (le_max_left m x))
        (le_max_right m x) (fun y hy => hl y (by simp [hy])) d h

lemma zipWith_drawdown_zero (l : List ℚ) (c0 : ℚ) (hc : 0 < c0)
    (hchain : List.Chain (· ≤ ·) c0 l) :
    ∀ d ∈ List.zipWith (fun c m2 => (c - m2) / m2) (c0 :: l) (List.scanl max c0 l),
      d = 0 := by
  induction l generalizing c0 with
  | nil =>
    intro d hd
    rw [List.scanl_nil] at hd
    simp only [List.zipWith, List.mem_singleton] at hd
    subst hd
    rw [sub_self, zero_div]
  | cons x xs ih =>
    intro d hd
    rw [List.chain_cons] at hchain
    rw [List.scanl_cons, List.singleton_append, List.zipWith_cons_cons] at hd
    rcases List.mem_cons.mp hd with h | h
    · subst h
      rw [sub_self, zero_div]
    · rw [max_eq_right hchain.1] at h
      exact ih x (lt_of_lt_of_le hc hchain.1) hchain.2 d h

lemma scanl_mul_chain (rs : List ℚ) (b c : ℚ) (hc : 0 < c) (hbc : b ≤ c)
    (hrs : ∀ r ∈ rs, 0 ≤ r) :
    List.Chain (· ≤ ·) b (List.scanl (fun acc ret => acc * (1 + ret)) c rs) := by
  induction rs generalizing b c with
  | nil =>
    rw [List.scanl_nil]
    exact List.chain_cons.mpr ⟨hbc, List.Chain.nil⟩
  | cons r rs2 ih =>
    rw [List.scanl_cons, List.singleton_append]
    refine List.chain_cons.mpr ⟨hbc, ?_⟩
    have hr : 0 ≤ r := hrs r (by simp)
    exact ih c (c * (1 + r)) (by nlinarith) (by nlinarith)
      (fun q hq => hrs q (by simp [hq]))

lemma foldl_min_bounds (xs : List ℚ) (a : ℚ) (h1 : -1 < a) (h2 : a ≤ 0)
    (hall : ∀ x ∈ xs, -1 < x ∧ x ≤ 0) :
    -1 < xs.foldl min a ∧ xs.foldl min a ≤ 0 := by
  induction xs generalizing a with
  | nil => exact ⟨h1, h2⟩
  | cons x xs2 ih =>
    rw [List.foldl_cons]
    have hx := hall x (by simp)
    exact ih (min a x) (lt_min h1 hx.1) (le_trans (min_le_left a x) h2)
      (fun y hy => hall y (by simp [hy]))

lemma foldl_min_zero (xs : List ℚ) (a : ℚ) (ha : a = 0)
    (hall : ∀ x ∈ xs, x = 0) : xs.foldl min a = 0 := by
  induction xs generalizing a with
  | nil => exact ha
  | cons x xs2 ih =>
    rw [List.foldl_cons]
    exact ih (min a x) (by rw [ha, hall x (by simp), min_self])
      (fun y hy => hall y (by simp [hy]))

lemma pyMin_bounds (l : List ℚ) (hne : ¬ l = [])
    (hall : ∀ x ∈ l, -1 < x ∧ x ≤ 0) : -1 < pyMin l ∧ pyMin l ≤ 0 := by
  cases l with
  | nil => exact absurd rfl hne
  | cons x xs =>
    have hx := hall x (by simp)
    exact foldl_min_bounds xs x hx.1 hx.2 (fun y hy => hall y (by simp [hy]))

lemma pyMin_zero (l : List ℚ) (hne : ¬ l = []) (hall : ∀ x ∈ l, x = 0) :
    pyMin l = 0 := by
  cases l with
  | nil => exact absurd rfl hne
  | cons x xs =>
    exact foldl_min_zero xs x (hall x (by simp)) (fun y hy => hall y (by simp [hy]))

lemma drawdowns_mem_bounds (prices : List ℚ) (hpos : ∀ p ∈ prices, 0 < p) :
    ∀ d ∈ drawdowns_list prices, -1 < d ∧ d ≤ 0 := by
  intro d hd
  simp only [drawdowns_list] at hd
  have hret := one_add_daily_returns_pos prices hpos
  cases hrets : daily_returns prices with
  | nil =>
    rw [hrets] at hd
    simp [cumulative_returns, running_max, List.scanl_nil, List.zipWith] at hd
    subst hd
    norm_num
  | cons r rs =>
    rw [hrets] at hd
    rw [show cumulative_returns (r :: rs) =
        1 :: List.scanl (fun acc ret => acc * (1 + ret)) (1 * (1 + r)) rs from by
      rw [cumulative_returns, List.scanl_cons, List.singleton_append]] at hd
    rw [running_max_cons] at hd
    refine zipWith_drawdown_bounds _ 1 1 one_pos one_pos (le_refl 1) ?_ d hd
    refine mem_scanl_mul_pos rs (1 * (1 + r)) ?_ ?_
    · have := hret r (by rw [hrets]; simp)
      linarith
    · intro q hq
      exact hret q (by rw [hrets]; simp [hq])

lemma drawdowns_ne_nil (prices : List ℚ) : ¬ drawdowns_list prices = [] := by
  simp only [drawdowns_list]
  cases hrets : daily_returns prices with
  | nil => simp [cumulative_returns, running_max, List.scanl_nil, List.zipWith]
  | cons r rs =>
    rw [show cumulative_returns (r :: rs) =
        1 :: List.scanl (fun acc ret => acc * (1 + ret)) (1 * (1 + r)) rs from by
      rw [cumulative_returns, List.scanl_cons, List.singleton_append]]
    rw [running_max_cons]
    cases hscan : List.scanl (fun acc ret => acc * (1 + ret)) (1 * (1 + r)) rs with
    | nil => simp [List.scanl_nil, List.zipWith]
    | cons t ts =>
      rw [List.scanl_cons, List.singleton_append, List.zipWith_cons_cons]
      simp

lemma drawdowns_zero (prices : List ℚ) (hpos : ∀ p ∈ prices, 0 < p)
    (hchain : List.Chain' (· < ·) prices) :
    ∀ d ∈ drawdowns_list prices, d = 0 := by
  intro d hd
  simp only [drawdowns_list] at hd
  have hnn := daily_returns_nonneg prices hpos hchain
  cases hrets : daily_returns prices with
  | nil =>
    rw [hrets] at hd
    simp [cumulative_returns, running_max, List.scanl_nil, List.zipWith] at hd
    subst hd
    norm_num
  | cons r rs =>
    rw [hrets] at hd
    rw [show cumulative_returns (r :: rs) =
        1 :: List.scanl (fun acc ret => acc * (1 + ret)) (1 * (1 + r)) rs from by
      rw [cumulative_returns, List.scanl_cons, List.singleton_append]] at hd
    rw [running_max_cons] at hd
    refine zipWith_drawdown_zero _ 1 one_pos ?_ d hd
    have hr : 0 ≤ r := hnn r (by rw [hrets]; simp)
    refine scanl_mul_chain rs 1 (1 * (1 + r)) (by nlinarith) (by nlinarith) ?_
    intro q hq
    exact hnn q (by rw [hrets]; simp [hq])

lemma roundHalfEvenQ_bounds (y : ℚ) (h1 : -10000 < y) (h2 : y ≤ 0) :
    -10000 ≤ roundHalfEvenQ y ∧ roundHalfEvenQ y ≤ 0 := by
  rw [roundHalfEvenQ_eq]
  have hfl : (-10000 : ℤ) ≤ ⌊y⌋ := Int.le_floor.mpr (by exact_mod_cast h1.le)
  have hfu : ⌊y⌋ ≤ 0 := by
    have := Int.floor_mono h2
    rwa [Int.floor_zero] at this
  split_ifs with ht he
  · exact ⟨hfl, hfu⟩
  · constructor
    · omega
    · have hy : y = (⌊y⌋ : ℚ) + 1/2 := by
        have hf : Int.fract y = y - ⌊y⌋ := rfl
        rw [hf] at ht
        linarith
      have : (⌊y⌋ : ℚ) ≤ -(1/2) := by
        rw [hy] at h2
        linarith
      have hq : (⌊y⌋ : ℚ) < 0 := lt_of_le_of_lt this (by norm_num)
      have hneg : ⌊y⌋ < 0 := by exact_mod_cast hq
      omega
  · constructor
    · refine le_trans hfl (Int.floor_mono ?_)
      linarith
    · have := Int.floor_mono (show y + 1/2 ≤ (1/2 : ℚ) from by linarith)
      rwa [show (⌊(1/2 : ℚ)⌋ : ℤ) = 0 from by norm_num] at this

/-- C3 amended: on a price history whose extracted close prices are
positive the reported maximum drawdown lies in the interval from -100 to
0 percent, and on a strictly increasing extracted price series it is
exactly 0.  The restriction to positive prices is necessary: with a
negative close among the accepted inputs the reported drawdown leaves the
interval, as the counterexample below shows. -/
theorem max_drawdown_in_range (hd : List TradingDay)
    (hpos : ∀ p ∈ extract_prices hd, 0 < p) :
    (-100 ≤ calculate_max_drawdown hd ∧ calculate_max_drawdown hd ≤ 0) ∧
    (List.Chain' (· < ·) (extract_prices hd) → calculate_max_drawdown hd = 0) := by
  constructor
  · unfold calculate_max_drawdown
    split_ifs with h10 h2
    · norm_num
    · norm_num
    · have hdd := drawdowns_mem_bounds (extract_prices hd) hpos
      have hne := drawdowns_ne_nil (extract_prices hd)
      have hmin := pyMin_bounds _ hne hdd
      unfold pyRound2Q
      have hx1 : -10000 < 100 * (pyMin (drawdowns_list (extract_prices hd)) * 100) := by
        linarith [hmin.1]
      have hx2 : 100 * (pyMin (drawdowns_list (extract_prices hd)) * 100) ≤ 0 := by
        linarith [hmin.2]
      have hr := roundHalfEvenQ_bounds _ hx1 hx2
      constructor
      · have hc : ((-10000 : ℤ) : ℚ) ≤
            (roundHalfEvenQ (100 * (pyMin (drawdowns_list (extract_prices hd)) * 100)) : ℚ) := by
          exact_mod_cast hr.1
        push_cast at hc
        linarith
      · have hc : ((roundHalfEvenQ (100 * (pyMin (drawdowns_list (extract_prices hd)) * 100)) : ℤ) : ℚ) ≤
            ((0 : ℤ) : ℚ) := by
          exact_mod_cast hr.2
        push_cast at hc
        linarith
  · intro hchain
    unfold calculate_max_drawdown
    split_ifs with h10 h2
    · rfl
    · rfl
    · have hzero := drawdowns_zero (extract_prices hd) hpos hchain
      have hne := drawdowns_ne_nil (extract_prices hd)
      rw [pyMin_zero _ hne hzero]
      rw [show (0 : ℚ) * 100 = 0 from by norm_num]
      exact pyRound2Q_of_mul_int 0 0 (by norm_num)

theorem max_drawdown_in_range_witness :
    (-100 ≤ calculate_max_drawdown
        [⟨some 1⟩, ⟨some 2⟩, ⟨some 3⟩, ⟨some 4⟩, ⟨some 5⟩,
         ⟨some 6⟩, ⟨some 7⟩, ⟨some 8⟩, ⟨some 9⟩, ⟨some 10⟩] ∧
      calculate_max_drawdown
        [⟨some 1⟩, ⟨some 2⟩, ⟨some 3⟩, ⟨some 4⟩, ⟨some 5⟩,
         ⟨some 6⟩, ⟨some 7⟩, ⟨some 8⟩, ⟨some 9⟩, ⟨some 10⟩] ≤ 0) ∧
    calculate_max_drawdown
        [⟨some 1⟩, ⟨some 2⟩, ⟨some 3⟩, ⟨some 4⟩, ⟨some 5⟩,
         ⟨some 6⟩, ⟨some 7⟩, ⟨some 8⟩, ⟨some 9⟩, ⟨some 10⟩] = 0 := by
  have hext : extract_prices
      [⟨some 1⟩, ⟨some 2⟩, ⟨some 3⟩, ⟨some 4⟩, ⟨some 5⟩,
       ⟨some 6⟩, ⟨some 7⟩, ⟨some 8⟩, ⟨some 9⟩, ⟨some 10⟩] =
      [1, 2, 3, 4, 5, 6, 7, 8, 9, 10] := by
    norm_num [extract_prices, List.filterMap_cons, List.filter_cons]
  have hpos : ∀ p ∈ extract_prices
      [⟨some 1⟩, ⟨some 2⟩, ⟨some 3⟩, ⟨some 4⟩, ⟨some 5⟩,
       ⟨some 6⟩, ⟨some 7⟩, ⟨some 8⟩, ⟨some 9⟩, ⟨some 10⟩], (0 : ℚ) < p := by
    rw [hext]
    norm_num [List.forall_mem_cons]
  have hchain : List.Chain' (· < ·) (extract_prices
      [⟨some 1⟩, ⟨some 2⟩, ⟨some 3⟩, ⟨some 4⟩, ⟨some 5⟩,
       ⟨some 6⟩, ⟨some 7⟩, ⟨some 8⟩, ⟨some 9⟩, ⟨some 10⟩]) := by
    rw [hext]
    norm_num [List.chain'_cons, List.chain'_singleton]
  exact ⟨(max_drawdown_in_range _ hpos).1, (max_drawdown_in_range _ hpos).2 hchain⟩

/-- C6 counterexample: a five-day history makes both risk computations
silently return the zeroed metric 0.0; the functions are total and have no
error outcome on this path, so no InsufficientHistoryError is raised. -/
theorem short_history_counterexample :
    calculate_max_drawdown
      [⟨some 100⟩, ⟨some 90⟩, ⟨some 80⟩, ⟨some 70⟩, ⟨some 60⟩] = 0 ∧
    calculate_sharpe_ratio
      [⟨some 100⟩, ⟨some 90⟩, ⟨some 80⟩, ⟨some 70⟩, ⟨some 60⟩]
      default_risk_free_rate = 0 := by
  constructor
  · unfold calculate_max_drawdown
    norm_num
  · unfold calculate_sharpe_ratio
    norm_num

/-- C6 amended: on every price history shorter than 10 entries the risk
engine returns the zeroed metrics 0.0 for maximum drawdown and Sharpe
ratio instead of raising an InsufficientHistoryError. -/
theorem short_history_returns_zeroed_metrics (hd : List TradingDay) (rf : ℝ)
    (h : hd.length < 10) :
    calculate_max_drawdown hd = 0 ∧ calculate_sharpe_ratio hd rf = 0 := by
  constructor
  · unfold calculate_max_drawdown
    rw [if_pos h]
  · unfold calculate_sharpe_ratio
    rw [if_pos h]

theorem short_history_returns_zeroed_metrics_witness :
    calculate_max_drawdown [⟨some 50⟩, ⟨some 51⟩, ⟨some 52⟩] = 0 ∧
    calculate_sharpe_ratio [⟨some 50⟩, ⟨some 51⟩, ⟨some 52⟩]
      default_risk_free_rate = 0 :=
  short_history_returns_zeroed_metrics _ _ (by norm_num)

/-- C5 amended: when the annualized volatility of the input is 0 the
Sharpe computation returns 0.0 without any exception (the zero divisor is
explicitly guarded); 0.0 is an ordinary float, not a null/undefined
sentinel, so it does not distinguish this case from a computed ratio. -/
theorem sharpe_zero_volatility_returns_zero (hd : List TradingDay) (rf : ℝ)
    (h : sharpe_annual_std hd = 0) : calculate_sharpe_ratio hd rf = 0 := by
  unfold calculate_sharpe_ratio
  split_ifs <;> rfl

lemma pyRound2R_zero : pyRound2R 0 = 0 := by
  unfold pyRound2R roundHalfEvenR
  norm_num [Int.fract_zero, round_zero]

lemma constant_history_annual_std_zero :
    sharpe_annual_std constantPriceHistory = 0 := by
  have hext : extract_prices constantPriceHistory = [1, 1, 1] := by
    norm_num [constantPriceHistory, extract_prices, List.filterMap_cons,
      List.filter_cons]
  have hsr : sharpe_returns constantPriceHistory = [0, 0] := by
    unfold sharpe_returns
    rw [hext]
    norm_num [daily_returns]
  have havg : sharpe_avg_return constantPriceHistory = 0 := by
    unfold sharpe_avg_return
    rw [hsr]
    norm_num
  unfold sharpe_annual_std sharpe_std_return
  rw [hsr, havg]
  norm_num

lemma zeroSharpe_extract :
    extract_prices zeroSharpeHistory = [1, 12727/12600, 6350773/6350400] := by
  norm_num [zeroSharpeHistory, extract_prices, List.filterMap_cons, List.filter_cons]

lemma zeroSharpe_returns :
    sharpe_returns zeroSharpeHistory = [(127/12600 : ℝ), (-5/504 : ℝ)] := by
  unfold sharpe_returns
  rw [zeroSharpe_extract]
  norm_num [daily_returns]

lemma zeroSharpe_avg : sharpe_avg_return zeroSharpeHistory = 1/12600 := by
  unfold sharpe_avg_return
  rw [zeroSharpe_returns]
  norm_num

lemma zeroSharpe_std : sharpe_std_return zeroSharpeHistory = 1/100 := by
  unfold sharpe_std_return
  rw [zeroSharpe_returns, zeroSharpe_avg]
  simp only [List.map_cons, List.map_nil, List.sum_cons, List.sum_nil,
    List.length_cons, List.length_nil]
  norm_num
  rw [show (10000 : ℝ) = 100 ^ 2 from by norm_num,
    Real.sqrt_sq (by norm_num : (0:ℝ) ≤ 100)]
  norm_num

lemma zeroSharpe_annual_std_ne :
    ¬ sharpe_annual_std zeroSharpeHistory = 0 := by
  unfold sharpe_annual_std
  rw [zeroSharpe_std]
  exact mul_ne_zero (by norm_num) (Real.sqrt_ne_zero'.mpr (by norm_num))

/-- C5 counterexample: the value returned at zero annualized volatility is
the plain float 0.0, not a null/undefined sentinel: a history with nonzero
annualized volatility whose annualized mean return equals the risk-free
rate yields exactly the same 0.0, so the two cases are indistinguishable
from the return value. -/
theorem sharpe_sentinel_counterexample :
    calculate_sharpe_ratio constantPriceHistory default_risk_free_rate = 0 ∧
    sharpe_annual_std constantPriceHistory = 0 ∧
    calculate_sharpe_ratio zeroSharpeHistory default_risk_free_rate = 0 ∧
    ¬ sharpe_annual_std zeroSharpeHistory = 0 := by
  refine ⟨?_, constant_history_annual_std_zero, ?_, zeroSharpe_annual_std_ne⟩
  · unfold calculate_sharpe_ratio
    rw [if_neg (by norm_num [constantPriceHistory]),
      if_neg (by norm_num [constantPriceHistory, extract_prices,
        List.filterMap_cons, List.filter_cons]),
      if_pos constant_history_annual_std_zero]
  · unfold calculate_sharpe_ratio
    rw [if_neg (by norm_num [zeroSharpeHistory]),
      if_neg (by rw [zeroSharpe_extract]; norm_num),
      if_neg zeroSharpe_annual_std_ne, zeroSharpe_avg,
      show (1/12600 : ℝ) * 252 - default_risk_free_rate = 0 from by
        unfold default_risk_free_rate; norm_num,
      zero_div]
    exact pyRound2R_zero

theorem sharpe_zero_volatility_witness :
    sharpe_annual_std constantPriceHistory = 0 ∧
    calculate_sharpe_ratio constantPriceHistory default_risk_free_rate = 0 :=
  ⟨constant_history_annual_std_zero,
   sharpe_zero_volatility_returns_zero constantPriceHistory default_risk_free_rate
     constant_history_annual_std_zero⟩

lemma negativeClose_drawdowns : drawdowns_list [1, -1] = [0, -2] := by
  have h1 : daily_returns [1, -1] = [-2] := by norm_num [daily_returns]
  simp only [drawdowns_list, h1]
  have h2 : cumulative_returns [-2] = [1, -1] := by
    norm_num [cumulative_returns, List.scanl]
  rw [h2, running_max_cons]
  norm_num [List.scanl, List.zipWith, max_def]

/-- C3 counterexample: the ten-day history with truthy closes 1 and -1
passes both length checks of calculate_max_drawdown, yet the reported
maximum drawdown is exactly -200 percent, outside the claimed interval
from -100 to 0. -/
theorem max_drawdown_out_of_range_counterexample :
    calculate_max_drawdown negativeCloseHistory = -200 ∧
    calculate_max_drawdown negativeCloseHistory < -100 := by
  have hext : extract_prices negativeCloseHistory = [1, -1] := by
    norm_num [negativeCloseHistory, extract_prices, List.filterMap_cons,
      List.filter_cons]
  have hval : calculate_max_drawdown negativeCloseHistory = -200 := by
    unfold calculate_max_drawdown
    rw [if_neg (by norm_num [negativeCloseHistory]), hext,
      if_neg (by norm_num), negativeClose_drawdowns,
      show pyMin [0, -2] * 100 = -200 from by
        norm_num [pyMin, List.foldl, min_def]]
    exact pyRound2Q_of_mul_int _ (-20000) (by norm_num)
  exact ⟨hval, by rw [hval]; norm_num⟩
